import Mathlib

/-!
Shallow embedding of `another-browserify-brunch` (src/index.js).

The repository holds two near-identical variants of the same Brunch plugin:
the gulp-pipeline variant (uses vinyl-source-stream / vinyl-buffer /
gulp-sourcemaps / gulp-uglify / gulp-rename / gulp.dest) and the
stream-to-file variant (uses exorcist / uglifyify / fs.createWriteStream).
Both are embedded below: the shared constructor logic once, the two
`bundle()` methods as event traces (`bundleTrace`, `bundleTrace2`), and a
semantic interpretation of the gulp pipeline (`runPipeline`) parametrised
over the behaviour of the external libraries (`LibSem`).

JavaScript objects are modelled as association lists with JS assignment
semantics (`objSet` overwrites the existing binding for a key, otherwise
appends); JS strings are Lean `String`s (one `Char` per JS code unit);
Node's `path` functions are modelled for `/`-separated paths.
-/

namespace AnotherBrowserify

/-- Model of the JavaScript values that appear in the option objects this
plugin builds: booleans, strings, string arrays (the `extensions` list) and
the fresh empty object `{}` assigned to `cache` / `packageCache`. -/
inductive BVal where
  | bool (b : Bool)
  | str (s : String)
  | strList (l : List String)
  | emptyObj
  deriving DecidableEq, Repr

/-- A JavaScript object, as an association list of its own enumerable
properties in insertion order (JS objects never hold two bindings for the
same key, see `objKeysNodup` hypotheses where this matters). -/
abbrev JSObj := List (String × BVal)

/-- Property read `o[k]`: first (hence only) binding for `k`. -/
def objGet : JSObj → String → Option BVal
  | [], _ => none
  | (k2, v) :: rest, k => if k2 = k then some v else objGet rest k

/-- Property write `o[k] = v`: overwrite the binding for `k` if present,
otherwise append a new one (JS insertion order). -/
def objSet : JSObj → String → BVal → JSObj
  | [], k, v => [(k, v)]
  | (k2, v2) :: rest, k, v =>
      if k2 = k then (k, v) :: rest else (k2, v2) :: objSet rest k v

/-- The JS `'k' in o` test. -/
def objHas (o : JSObj) (k : String) : Bool :=
  (objGet o k).isSome

/-- `for (var key in user) base[key] = user[key]` (src/index.js lines 68-69
and 234-235). -/
def objMerge (base user : JSObj) : JSObj :=
  user.foldl (fun acc p => objSet acc p.1 p.2) base

/-! ### Model of Node's `path` module (POSIX separator `/`)

String scanning is implemented over `List Char` (via `String.toList` /
`String.mk`) so that every definition evaluates by kernel reduction. -/

/-- Whether `pre` is an initial segment of `s` (the JS
`s.indexOf(pre) === 0` test for the shapes this plugin uses). -/
def strStartsWith (s pre : String) : Bool :=
  pre.toList.isPrefixOf s.toList

/-- Split a character list at `/`, keeping empty segments. -/
def splitOnSlashAux : List Char → List Char → List (List Char)
  | [], acc => [acc.reverse]
  | c :: rest, acc =>
      if c = '/' then acc.reverse :: splitOnSlashAux rest []
      else splitOnSlashAux rest (c :: acc)

/-- The `/`-separated segments of a path. -/
def splitOnSlash (s : String) : List String :=
  (splitOnSlashAux s.toList []).map String.mk

/-- Re-join path segments with `/`. -/
def intercalateSlash : List String → String
  | [] => ""
  | [p] => p
  | p :: rest => p ++ "/" ++ intercalateSlash rest

/-- `path.join(a, b)` restricted to the shapes this plugin produces: joins
with a single separator, treating `"."` and `""` as the neutral directory. -/
def joinPath (a b : String) : String :=
  if a = "." then b else if a = "" then b else a ++ "/" ++ b

/-- `path.resolve(cwd, p)` without `.`/`..` normalisation: absolute paths
are kept, relative ones are joined onto the current working directory. -/
def pathResolve (cwd p : String) : String :=
  if strStartsWith p "/" then p else joinPath cwd p

/-- `path.resolve(cwd, a, b)`: resolve `b` against the resolution of `a`. -/
def pathResolve2 (cwd a b : String) : String :=
  if strStartsWith b "/" then b else joinPath (pathResolve cwd a) b

/-- Index of the last occurrence of `c` in `cs`, counting from offset `i`. -/
def lastIndexOfAux (c : Char) : List Char → Nat → Option Nat
  | [], _ => none
  | x :: rest, i =>
      match lastIndexOfAux c rest (i + 1) with
      | some j => some j
      | none => if x = c then some i else none

/-- Index of the last occurrence of `c` in `s`. -/
def lastIndexOf (s : String) (c : Char) : Option Nat :=
  lastIndexOfAux c s.toList 0

/-- The final `/`-separated segment of a path (the raw basename). -/
def pathBasenameRaw (p : String) : String :=
  (splitOnSlash p).getLastD ""

/-- `path.extname(p)`: from the last `.` of the final segment to the end;
empty for dot-less names and for dotfiles. -/
def pathExtname (p : String) : String :=
  let b := pathBasenameRaw p
  match lastIndexOf b '.' with
  | none => ""
  | some 0 => ""
  | some i => String.mk (b.toList.drop i)

/-- `path.basename(p, ext)`: the final segment with a trailing `ext`
stripped when `ext` is a nonempty proper suffix of it. -/
def pathBasename (p ext : String) : String :=
  let b := pathBasenameRaw p
  if ext.toList.isSuffixOf b.toList && decide (ext.length ≠ 0)
      && decide (ext.length < b.length) then
    String.mk (b.toList.take (b.toList.length - ext.toList.length))
  else b

/-- `path.dirname(p)`: everything before the final segment; `"."` when
there is no separator, `"/"` for a root-level path. -/
def pathDirname (p : String) : String :=
  let parts := (splitOnSlash p).dropLast
  if parts = [] then "."
  else if parts = [""] then "/"
  else intercalateSlash parts

/-! ### Configuration (src/index.js lines 35-54 and 215-220) -/

/-- The value of the `gulpPipeCreateFns` configuration field, as far as the
code inspects it: JS truthiness (line 123), `instanceof Array` (line 124)
and, per element, `instanceof Function` (line 128).  An array element is
recorded as the Bool of that `instanceof Function` test. -/
inductive GulpPipes where
  | falsy
  | truthyNonArray
  | arr (elems : List Bool)
  deriving DecidableEq, Repr

/-- `brunchConfig.plugins.anotherBrowserify` — the plugin's own settings. -/
structure PluginConfig where
  entry : String
  outFile : String
  mapFile : String := ""
  uglifyOptions : Option JSObj := none
  browserifyOptions : JSObj := []
  gulpPipeCreateFns : GulpPipes := .falsy
  touchOnCompile : Option String := none
  deriving Repr

/-- The host (Brunch) configuration fields the plugin reads. -/
structure BrunchConfig where
  pathsPublic : String
  sourceMaps : Bool
  optimize : Bool
  plugins : PluginConfig
  deriving Repr

/-- `this.uglifyOptions_` after the constructor (lines 42-46):
`config.uglifyOptions || {}`, then `compress` forced to `false` when source
maps are on and the host did not set `compress` itself. -/
def uglifyOptionsInit (bc : BrunchConfig) : JSObj :=
  let u := bc.plugins.uglifyOptions.getD []
  if bc.sourceMaps && !objHas u "compress" then
    objSet u "compress" (.bool false)
  else u

/-- The `gulp-rename` options (lines 48-54). -/
structure RenameOpts where
  dirname : String
  basename : String
  extname : String
  deriving DecidableEq, Repr

/-- `this.gulpRenameOptions_` (lines 49-54). -/
def gulpRenameOptions (outFile : String) : RenameOpts :=
  let extension := pathExtname outFile
  { dirname := pathDirname outFile
    basename := pathBasename outFile extension
    extname := extension }

/-- The `this.watching_` scan (lines 56-62): walk `process.argv` and stop
at the first element `=== 'watch'`. -/
def watchingOf : List String → Bool
  | [] => false
  | a :: rest => if a = "watch" then true else watchingOf rest

/-- The default bundler options (lines 64-66). -/
def baseOptions : JSObj := [("extensions", .strList [".js", ".es6"])]

/-- `bOptions` after the user-option copy loop (lines 68-69). -/
def mergedOptions (bc : BrunchConfig) : JSObj :=
  objMerge baseOptions bc.plugins.browserifyOptions

/-- `bOptions` after the forced `debug` flag (lines 71-73). -/
def optionsWithDebug (bc : BrunchConfig) : JSObj :=
  if bc.sourceMaps then objSet (mergedOptions bc) "debug" (.bool true)
  else mergedOptions bc

/-- `bOptions` as finally passed to `browserify` (lines 64-78): defaults,
then the user copy loop, then the forced `debug`, then — in watch mode —
fresh empty `cache` and `packageCache` objects. -/
def mkBOptions (bc : BrunchConfig) (argv : List String) : JSObj :=
  if watchingOf argv then
    objSet (objSet (optionsWithDebug bc) "cache" .emptyObj) "packageCache" .emptyObj
  else optionsWithDebug bc

/-- The state the gulp-variant constructor leaves on `this`
(lines 35-99). `bundlerIsWatchify` records whether line 82 wrapped the
browserify instance in watchify. -/
structure PluginState where
  entryFile_ : String
  gulpDestDir_ : String
  outFile_ : String
  uglifyOptions_ : JSObj
  gulpRenameOptions_ : RenameOpts
  watching_ : Bool
  bOptions : JSObj
  bundlerIsWatchify : Bool
  touchOnCompile : Option String
  deriving Repr

/-- The gulp-variant constructor (lines 35-99), as the state it computes
from the host configuration, the process arguments and the working
directory. -/
def mkPlugin (bc : BrunchConfig) (argv : List String) (cwd : String) : PluginState :=
  { entryFile_ := pathResolve cwd bc.plugins.entry
    gulpDestDir_ := pathResolve cwd bc.pathsPublic
    outFile_ := pathResolve2 cwd bc.pathsPublic bc.plugins.outFile
    uglifyOptions_ := uglifyOptionsInit bc
    gulpRenameOptions_ := gulpRenameOptions bc.plugins.outFile
    watching_ := watchingOf argv
    bOptions := mkBOptions bc argv
    bundlerIsWatchify := watchingOf argv
    touchOnCompile := bc.plugins.touchOnCompile }

/-! ### The gulp-variant `bundle()` method (lines 103-169) as an event trace -/

/-- One gulp pipeline stage, identified by the `.pipe(...)` call that
attaches it, with the argument that call receives. -/
inductive Stage where
  | sourceWrap (entryFile : String)
  | buffer
  | sourcemapsInit
  | userPipe (i : Nat)
  | uglifyStage (opts : JSObj)
  | renameStage (opts : RenameOpts)
  | sourcemapsWrite (dir : String)
  | gulpDest (dir : String)
  deriving DecidableEq, Repr

/-- An observable step of one `bundle()` call, in program order: the
synchronous call into the bundler's `bundle()` (line 111) and each
`.pipe(...)` stage attachment. -/
inductive Event where
  | bundlerBundleInvoked
  | pipeAttached (s : Stage)
  deriving DecidableEq, Repr

/-- The two configuration errors `bundle()` can throw (lines 125 and 129). -/
inductive BundleError where
  | configNotArray
  | elementNotFunction (i : Nat)
  deriving DecidableEq, Repr

/-- The `gulpPipeCreateFns.forEach` loop (lines 127-131): attaches a user
pipe per element until the first element that is not a `Function`, at which
point it throws with that element's index.  Returns the attached events and
the error, if any. -/
def attachUserPipes : List Bool → Nat → List Event × Option BundleError
  | [], _ => ([], none)
  | isFn :: rest, i =>
      if isFn then
        let r := attachUserPipes rest (i + 1)
        (Event.pipeAttached (.userPipe i) :: r.1, r.2)
      else ([], some (.elementNotFunction i))

/-- Lines 123-132: skip when `gulpPipeCreateFns` is falsy, throw the
array-shape error when it is truthy but not an `Array`, otherwise run the
`forEach` loop. -/
def gulpPipesStep : GulpPipes → List Event × Option BundleError
  | .falsy => ([], none)
  | .truthyNonArray => ([], some .configNotArray)
  | .arr elems => attachUserPipes elems 0

/-- The events of `bundle()` up to and including the source-maps init pipe
(lines 111-120): the bundler's `bundle()` call, the vinyl-source wrap, the
buffer stage and — when source maps are on — `sourcemaps.init`. -/
def preEvents (bc : BrunchConfig) (st : PluginState) : List Event :=
  [Event.bundlerBundleInvoked,
   .pipeAttached (.sourceWrap st.entryFile_),
   .pipeAttached .buffer]
  ++ (if bc.sourceMaps then [Event.pipeAttached .sourcemapsInit] else [])

/-- The pipe attachments after the user pipes (lines 134-143): the optional
uglify stage, the rename stage, the optional `sourcemaps.write('.')` stage
and the `gulp.dest` stage. -/
def postEvents (bc : BrunchConfig) (st : PluginState) : List Event :=
  (if bc.optimize then [Event.pipeAttached (.uglifyStage st.uglifyOptions_)] else [])
  ++ [Event.pipeAttached (.renameStage st.gulpRenameOptions_)]
  ++ (if bc.sourceMaps then [Event.pipeAttached (.sourcemapsWrite ".")] else [])
  ++ [Event.pipeAttached (.gulpDest st.gulpDestDir_)]

/-- One `bundle()` call of the gulp variant (lines 103-143): the events
that occur, in order, before the call returns or throws, paired with the
error it throws, if any (`none` means the pipeline was fully assembled). -/
def bundleTrace (bc : BrunchConfig) (st : PluginState) : List Event × Option BundleError :=
  match gulpPipesStep bc.plugins.gulpPipeCreateFns with
  | (evs, some e) => (preEvents bc st ++ evs, some e)
  | (evs, none) => (preEvents bc st ++ evs ++ postEvents bc st, none)

/-- The stages attached by a trace, in attachment order. -/
def stagesOf (evs : List Event) : List Stage :=
  evs.filterMap fun e =>
    match e with
    | .bundlerBundleInvoked => none
    | .pipeAttached s => some s

/-- Whether a stage is the terminal `gulp.dest` write stage. -/
def isDestStage : Stage → Bool
  | .gulpDest _ => true
  | _ => false

/-- How many destination-write stages one `bundle()` call attaches: the
number of pipeline runs its trace drives to disk. -/
def destStageCount (bc : BrunchConfig) (st : PluginState) : Nat :=
  (stagesOf (bundleTrace bc st).1).countP isDestStage

/-! ### Semantics of the gulp pipeline stages -/

/-- The in-flight vinyl file: its path relative to the destination root and
its contents as bytes. -/
structure Artifact where
  relPath : String
  contents : List Nat
  deriving DecidableEq, Repr

/-- The behaviour of the external libraries a pipeline run delegates to:
the bundler's serialized output and the content transformations of
`gulp-sourcemaps`, the user-supplied gulp plugins and `gulp-uglify`.
Theorems quantify over this, so they hold whatever those libraries do. -/
structure LibSem where
  raw : List Nat
  smInit : List Nat → List Nat
  smAnnotate : List Nat → List Nat
  smData : List Nat → List Nat
  userFn : Nat → List Nat → List Nat
  minify : JSObj → List Nat → List Nat

/-- The state flowing through one pipeline run: the main artifact, the
source-map artifact once `sourcemaps.write` has split it off, and the
files written to disk so far as `(absolute path, bytes)` pairs. -/
structure Flow where
  art : Artifact
  mapArt : Option Artifact
  writes : List (String × List Nat)
  deriving Repr

/-- The relative path `gulp-rename` produces: with `dirname`, `basename`
and `extname` all set (as this plugin's constructor sets them), the
original name is ignored and the result is `dirname/basename + extname`. -/
def applyRename (o : RenameOpts) : String :=
  joinPath o.dirname (o.basename ++ o.extname)

/-- The effect of one stage on the in-flight state.  `sourcemaps.write('.')`
annotates the bundle and splits off a sibling `.map` artifact; `gulp.dest`
writes the artifact (and the map artifact, when present) under its
directory. -/
def runStage (L : LibSem) (f : Flow) : Stage → Flow
  | .sourceWrap entryFile =>
      { f with art := { relPath := entryFile, contents := L.raw } }
  | .buffer => f
  | .sourcemapsInit =>
      { f with art := { f.art with contents := L.smInit f.art.contents } }
  | .userPipe i =>
      { f with art := { f.art with contents := L.userFn i f.art.contents } }
  | .uglifyStage opts =>
      { f with art := { f.art with contents := L.minify opts f.art.contents } }
  | .renameStage opts =>
      { f with art := { f.art with relPath := applyRename opts } }
  | .sourcemapsWrite _dir =>
      { f with
        art := { f.art with contents := L.smAnnotate f.art.contents }
        mapArt := some { relPath := f.art.relPath ++ ".map"
                         contents := L.smData f.art.contents } }
  | .gulpDest dir =>
      { f with
        writes := f.writes
          ++ [(joinPath dir f.art.relPath, f.art.contents)]
          ++ (match f.mapArt with
              | some m => [(joinPath dir m.relPath, m.contents)]
              | none => []) }

/-- Run a stage list over an initial flow state. -/
def runPipeline (L : LibSem) (stages : List Stage) (f : Flow) : Flow :=
  stages.foldl (runStage L) f

/-- The flow state before any stage has run. -/
def initFlow : Flow :=
  { art := { relPath := "", contents := [] }, mapArt := none, writes := [] }

/-- The semantic result of one error-free `bundle()` call: run every
attached stage, in attachment order, from the initial state. -/
def runBundle (L : LibSem) (bc : BrunchConfig) (st : PluginState) : Flow :=
  runPipeline L (stagesOf (bundleTrace bc st).1) initFlow

/-! ### The completion handler (lines 143-168) and its log output -/

/-- `stripFromBeginning` (lines 180-188): return the subject unchanged for
a falsy (empty) query; otherwise, when the query occurs at index 0 of the
subject (`subject.indexOf(query) === 0`), return `subject.substr(query.length)`,
else the subject unchanged. -/
def stripFromBeginning (subject query : String) : String :=
  if query = "" then subject
  else if query.toList.isPrefixOf subject.toList then
    String.mk (subject.toList.drop query.length)
  else subject

/-- `shortFileName` applied with `process.cwd() + path.sep` (line 177; the
separator is `/` here, as in the variant at line 319). -/
def shortFileName (cwd fileName : String) : String :=
  stripFromBeginning fileName (cwd ++ "/")

/-- One console line the plugin prints, abstracted over colouring and
whitespace decoration. -/
inductive LogLine where
  | startBundling
  | compiled (name : String)
  | compiledIn (name : String) (ms : Nat)
  | finishedIn (ms : Nat)
  | triggeringReload
  | errorLine (msg : String)
  deriving DecidableEq, Repr

/-- The `Start bundling` line (lines 106-109), printed when the change
notification carries more than one file. -/
def bundleStartLog (changedFiles : Option (List String)) : List LogLine :=
  match changedFiles with
  | some fs => if 1 < fs.length then [.startBundling] else []
  | none => []

/-- The changed-file summary of the finish handler (lines 150-162): a
`Compiled:` line per file plus a `Finished ... in Xms` line when several
files changed, one `Compiled: <file> in Xms` line otherwise. -/
def finishLog (cwd : String) (changedFiles : Option (List String)) (ms : Nat) :
    List LogLine :=
  match changedFiles with
  | none => []
  | some fs =>
      if 1 < fs.length then
        fs.map (fun f => LogLine.compiled (shortFileName cwd f)) ++ [.finishedIn ms]
      else
        [.compiledIn (shortFileName cwd (fs.headD "undefined")) ms]

/-- How one `bundle()` run ends: the terminal stage fires `finish`, or the
bundle stream raises an error (handled at lines 112-114, where it is only
logged; the finish handler never runs). -/
inductive Outcome where
  | success
  | failure (msg : String)
  deriving DecidableEq, Repr

/-- The `finish` handler (lines 144-168): print the changed-file summary,
then — when `touchOnCompile` is configured — `touch.sync` the sentinel
(setting its modification time to the current clock `now`, creating it if
absent) and print the reload line.  Returns the log lines and the
sentinel's new modification time (`none` = file absent). -/
def onFinish (st : PluginState) (cwd : String) (changedFiles : Option (List String))
    (ms now : Nat) (mtime : Option Nat) : List LogLine × Option Nat :=
  let logs := finishLog cwd changedFiles ms
  match st.touchOnCompile with
  | some _ => (logs ++ [.triggeringReload], some now)
  | none => (logs, mtime)

/-- What one pipeline run does at its end: on success the `finish` handler
runs; on failure only the error handler (lines 112-114) runs and the
sentinel file is left alone. -/
def bundleCompletion (st : PluginState) (cwd : String)
    (changedFiles : Option (List String)) (ms now : Nat) (mtime : Option Nat) :
    Outcome → List LogLine × Option Nat
  | .success => onFinish st cwd changedFiles ms now mtime
  | .failure msg => ([.errorLine msg], mtime)

/-! ### The stream-to-file variant (lines 215-311) -/

/-- A pipeline step of the second variant's `bundle()` (lines 280-287):
the `exorcist` map-extraction filter and the direct write stream. -/
inductive Stage2 where
  | exorcist (mapFile : String)
  | writeStream (outFile : String)
  deriving DecidableEq, Repr

/-- An observable step of the second variant's `bundle()`. -/
inductive Event2 where
  | bundlerBundleInvoked
  | piped (s : Stage2)
  deriving DecidableEq, Repr

/-- The state the second variant's constructor (lines 215-268) leaves on
`this`.  `uglifyifyRegistered` records the optimize-time transform
registration at lines 257-258: in this variant minification is a bundler
transform installed at construction, not a pipeline stage. -/
structure Plugin2State where
  outFile_ : String
  outMapFile_ : String
  watching_ : Bool
  bOptions : JSObj
  bundlerIsWatchify : Bool
  uglifyifyRegistered : Bool
  touchOnCompile : Option String
  deriving Repr

/-- The second variant's constructor (lines 215-268).  Its `bOptions`
logic (lines 230-244) is identical to the gulp variant's, so `mkBOptions`
is shared. -/
def mkPlugin2 (bc : BrunchConfig) (argv : List String) (cwd : String) : Plugin2State :=
  { outFile_ := pathResolve2 cwd bc.pathsPublic bc.plugins.outFile
    outMapFile_ := pathResolve2 cwd bc.pathsPublic bc.plugins.mapFile
    watching_ := watchingOf argv
    bOptions := mkBOptions bc argv
    bundlerIsWatchify := watchingOf argv
    uglifyifyRegistered := bc.optimize
    touchOnCompile := bc.plugins.touchOnCompile }

/-- One `bundle()` call of the second variant (lines 272-311): invoke the
bundler, pipe through `exorcist` into the configured map file when source
maps are on, then pipe into the output write stream. -/
def bundleTrace2 (bc : BrunchConfig) (st : Plugin2State) : List Event2 :=
  [Event2.bundlerBundleInvoked]
  ++ (if bc.sourceMaps then [Event2.piped (.exorcist st.outMapFile_)] else [])
  ++ [Event2.piped (.writeStream st.outFile_)]

/-! ### Helper lemmas -/

theorem objGet_objSet_self (o : JSObj) (k : String) (v : BVal) :
    objGet (objSet o k v) k = some v := by
  induction o with
  | nil => simp [objSet, objGet]
  | cons p rest ih =>
      by_cases h : p.1 = k
      · simp [objSet, objGet, h]
      · simp [objSet, objGet, h, ih]

theorem objGet_objSet_ne (o : JSObj) (k k2 : String) (v : BVal) (h : k2 ≠ k) :
    objGet (objSet o k v) k2 = objGet o k2 := by
  have h2 : ¬(k = k2) := fun hh => h hh.symm
  induction o with
  | nil => simp [objSet, objGet, h2]
  | cons p rest ih =>
      by_cases hp : p.1 = k
      · simp [objSet, objGet, hp, h2]
      · by_cases hp2 : p.1 = k2
        · simp [objSet, objGet, hp, hp2, h]
        · simp [objSet, objGet, hp, hp2, ih]

theorem objGet_mem_keys (o : JSObj) (k : String) (v : BVal)
    (h : objGet o k = some v) : k ∈ o.map Prod.fst := by
  induction o with
  | nil => simp [objGet] at h
  | cons p rest ih =>
      by_cases hp : p.1 = k
      · simp [hp]
      · simp [objGet, hp] at h
        simp [ih h]

theorem objMerge_cons (base : JSObj) (p : String × BVal) (rest : JSObj) :
    objMerge base (p :: rest) = objMerge (objSet base p.1 p.2) rest := by
  simp [objMerge]

theorem objMerge_get_not_mem (base user : JSObj) (k : String)
    (h : k ∉ user.map Prod.fst) :
    objGet (objMerge base user) k = objGet base k := by
  induction user generalizing base with
  | nil => simp [objMerge]
  | cons p rest ih =>
      simp only [List.map_cons, List.mem_cons] at h
      push_neg at h
      rw [objMerge_cons, ih (objSet base p.1 p.2) h.2,
        objGet_objSet_ne base p.1 k p.2 h.1]

theorem objMerge_get_mem (base user : JSObj) (k : String)
    (hnd : (user.map Prod.fst).Nodup) (h : k ∈ user.map Prod.fst) :
    objGet (objMerge base user) k = objGet user k := by
  induction user generalizing base with
  | nil => simp at h
  | cons p rest ih =>
      simp only [List.map_cons, List.nodup_cons] at hnd
      by_cases hk : p.1 = k
      · subst hk
        rw [objMerge_cons, objMerge_get_not_mem (objSet base p.1 p.2) rest p.1 hnd.1,
          objGet_objSet_self]
        simp [objGet]
      · simp only [List.map_cons, List.mem_cons] at h
        rcases h with h | h
        · exact absurd h.symm hk
        · rw [objMerge_cons, ih (objSet base p.1 p.2) hnd.2 h]
          simp [objGet, hk]

theorem watchingOf_iff (argv : List String) :
    watchingOf argv = true ↔ "watch" ∈ argv := by
  induction argv with
  | nil => simp [watchingOf]
  | cons a rest ih =>
      by_cases h : a = "watch"
      · simp [watchingOf, h]
      · have h2 : ¬("watch" = a) := fun hh => h hh.symm
        simp [watchingOf, h, h2, ih]

theorem mkBOptions_debug (bc : BrunchConfig) (argv : List String)
    (h : bc.sourceMaps = true) :
    objGet (mkBOptions bc argv) "debug" = some (.bool true) := by
  unfold mkBOptions
  cases hw : watchingOf argv <;>
    simp [optionsWithDebug, h, objGet_objSet_self, objGet_objSet_ne,
      (by decide : ("debug" : String) ≠ "cache"),
      (by decide : ("debug" : String) ≠ "packageCache")]

theorem mkBOptions_cache (bc : BrunchConfig) (argv : List String)
    (h : watchingOf argv = true) :
    objGet (mkBOptions bc argv) "cache" = some .emptyObj
    ∧ objGet (mkBOptions bc argv) "packageCache" = some .emptyObj := by
  unfold mkBOptions
  rw [h, if_pos rfl]
  constructor
  · rw [objGet_objSet_ne (objSet (optionsWithDebug bc) "cache" BVal.emptyObj)
        "packageCache" "cache" BVal.emptyObj (by decide), objGet_objSet_self]
  · rw [objGet_objSet_self]

theorem mkBOptions_passthrough (bc : BrunchConfig) (argv : List String) (k : String)
    (h1 : k ≠ "debug") (h2 : k ≠ "cache") (h3 : k ≠ "packageCache") :
    objGet (mkBOptions bc argv) k = objGet (mergedOptions bc) k := by
  unfold mkBOptions optionsWithDebug
  cases hw : watchingOf argv <;> cases hs : bc.sourceMaps <;>
    simp [objGet_objSet_ne _ _ _ _ h1, objGet_objSet_ne _ _ _ _ h2,
      objGet_objSet_ne _ _ _ _ h3]

theorem attachUserPipes_all (elems : List Bool) (hall : ∀ b ∈ elems, b = true) :
    ∀ i, attachUserPipes elems i
      = ((List.range' i elems.length).map
          (fun j => Event.pipeAttached (.userPipe j)), none) := by
  induction elems with
  | nil => intro i; simp [attachUserPipes]
  | cons b rest ih =>
      intro i
      have hb : b = true := hall b (by simp)
      have hrest : ∀ x ∈ rest, x = true := fun x hx => hall x (by simp [hx])
      simp [attachUserPipes, hb, ih hrest (i + 1), List.range']

theorem attachUserPipes_none (elems : List Bool) (i : Nat)
    (h : (attachUserPipes elems i).2 = none) :
    attachUserPipes elems i
      = ((List.range' i elems.length).map
          (fun j => Event.pipeAttached (.userPipe j)), none) := by
  induction elems generalizing i with
  | nil => simp [attachUserPipes]
  | cons b rest ih =>
      cases b with
      | false => simp [attachUserPipes] at h
      | true =>
          simp only [attachUserPipes] at h ⊢
          simp [ih (i + 1) h, List.range']

theorem gulpPipesStep_none (gp : GulpPipes) (evs : List Event)
    (h : gulpPipesStep gp = (evs, none)) :
    ∀ e ∈ evs, ∃ j, e = Event.pipeAttached (.userPipe j) := by
  cases gp with
  | falsy =>
      simp [gulpPipesStep] at h
      intro e he
      rw [h] at he
      simp at he
  | truthyNonArray => simp [gulpPipesStep] at h
  | arr elems =>
      simp only [gulpPipesStep] at h
      have h2 : (attachUserPipes elems 0).2 = none := by rw [h]
      rw [attachUserPipes_none elems 0 h2] at h
      injection h with h1 _
      intro e he
      rw [← h1] at he
      simp only [List.mem_map] at he
      obtain ⟨j, _, hj⟩ := he
      exact ⟨j, hj.symm⟩

theorem bundleTrace_shape (bc : BrunchConfig) (st : PluginState)
    (h : (bundleTrace bc st).2 = none) :
    ∃ evs, bundleTrace bc st = (preEvents bc st ++ evs ++ postEvents bc st, none)
      ∧ ∀ e ∈ evs, ∃ j, e = Event.pipeAttached (.userPipe j) := by
  unfold bundleTrace at h ⊢
  rcases hstep : gulpPipesStep bc.plugins.gulpPipeCreateFns with ⟨evs, err⟩
  cases err with
  | some e => rw [hstep] at h; simp at h
  | none => exact ⟨evs, by simp, gulpPipesStep_none _ _ hstep⟩

theorem runPipeline_append (L : LibSem) (a b : List Stage) (f : Flow) :
    runPipeline L (a ++ b) f = runPipeline L b (runPipeline L a f) := by
  simp [runPipeline, List.foldl_append]

theorem stagesOf_append (a b : List Event) :
    stagesOf (a ++ b) = stagesOf a ++ stagesOf b := by
  simp [stagesOf, List.filterMap_append]

theorem runPipeline_map_write (L : LibSem) (pfx : List Stage) (ropts : RenameOpts)
    (d : String) :
    ∃ data, (joinPath d (applyRename ropts ++ ".map"), data)
      ∈ (runPipeline L
          (pfx ++ [.renameStage ropts, .sourcemapsWrite ".", .gulpDest d])
          initFlow).writes := by
  rw [runPipeline_append]
  refine ⟨L.smData (runPipeline L pfx initFlow).art.contents, ?_⟩
  simp [runPipeline, runStage]

/-! ### Concrete configurations and library behaviour for the witnesses -/

/-- A concrete plugin configuration used by witnesses. -/
def demoPlugin : PluginConfig :=
  { entry := "app/init.js", outFile := "js/app.js" }

/-- A concrete host configuration used by witnesses. -/
def demoBrunch : BrunchConfig :=
  { pathsPublic := "public", sourceMaps := false, optimize := false,
    plugins := demoPlugin }

/-- A concrete behaviour of the external libraries used by witnesses. -/
def demoLib : LibSem :=
  { raw := [104, 101], smInit := id, smAnnotate := id, smData := id,
    userFn := fun _ c => c, minify := fun _ c => c }

/-! ### The claims -/

/-- C10: `shortFileName` returns the suffix of the file name after
`cwd ++ "/"` when the file name begins with that prefix and the file name
unchanged otherwise, and `stripFromBeginning` with an empty (falsy) query
returns its subject unchanged. -/
theorem shortFileName_strips_cwd (cwd f s : String) :
    stripFromBeginning s "" = s
    ∧ ((cwd ++ "/").toList.isPrefixOf f.toList = true →
        shortFileName cwd f = String.mk (f.toList.drop (cwd ++ "/").length))
    ∧ ((cwd ++ "/").toList.isPrefixOf f.toList = false → shortFileName cwd f = f) := by
  have hne : (cwd ++ "/") ≠ "" := by
    intro hh
    have h1 := congrArg String.length hh
    rw [String.length_append] at h1
    have h2 : ("/" : String).length = 1 := by decide
    have h3 : ("" : String).length = 0 := by decide
    rw [h2, h3] at h1
    omega
  refine ⟨by simp [stripFromBeginning], ?_, ?_⟩
  · intro hp
    unfold shortFileName stripFromBeginning
    rw [if_neg hne, if_pos hp]
  · intro hp
    unfold shortFileName stripFromBeginning
    rw [if_neg hne, if_neg (by rw [hp]; decide)]

theorem shortFileName_strips_cwd_witness :
    stripFromBeginning "abc" "" = "abc"
    ∧ ("/work" ++ "/").toList.isPrefixOf "/work/app.js".toList = true
    ∧ shortFileName "/work" "/work/app.js"
        = String.mk ("/work/app.js".toList.drop ("/work" ++ "/").length)
    ∧ ("/work" ++ "/").toList.isPrefixOf "other.js".toList = false
    ∧ shortFileName "/work" "other.js" = "other.js" :=
  ⟨(shortFileName_strips_cwd "/work" "/work/app.js" "abc").1,
   by decide,
   (shortFileName_strips_cwd "/work" "/work/app.js" "abc").2.1 (by decide),
   by decide,
   (shortFileName_strips_cwd "/work" "other.js" "abc").2.2 (by decide)⟩

/-- A host configuration whose `gulpPipeCreateFns` is a truthy non-array
value. -/
def brunchC1 : BrunchConfig :=
  { pathsPublic := "public", sourceMaps := false, optimize := false,
    plugins := { entry := "app/init.js", outFile := "js/app.js",
                 gulpPipeCreateFns := .truthyNonArray } }

/-- C1 counterexample: with `gulpPipeCreateFns` set to a truthy non-array
value, `bundle()` does throw the configuration error — but the trace up to
the throw already contains the bundler's `bundle()` invocation (line 111)
and the source-wrap and buffer stage attachments (lines 116-117), refuting
"before the bundler's bundle() is invoked or any pipeline stage is
attached". -/
theorem gulpPipes_nonArray_throwsLate_cex :
    (bundleTrace brunchC1 (mkPlugin brunchC1 ["brunch", "build"] "/work")).2
        = some .configNotArray
    ∧ Event.bundlerBundleInvoked
        ∈ (bundleTrace brunchC1 (mkPlugin brunchC1 ["brunch", "build"] "/work")).1
    ∧ Event.pipeAttached (.sourceWrap "/work/app/init.js")
        ∈ (bundleTrace brunchC1 (mkPlugin brunchC1 ["brunch", "build"] "/work")).1
    ∧ Event.pipeAttached .buffer
        ∈ (bundleTrace brunchC1 (mkPlugin brunchC1 ["brunch", "build"] "/work")).1 := by
  decide

/-- C1 (amended): with `gulpPipeCreateFns` set to a truthy non-array value,
`bundle()` throws the configuration error before any user-supplied stage,
the minifier, the rename stage, the source-map writer or the destination
writer is attached — the events up to the throw are exactly the bundler's
`bundle()` invocation and the source-wrap, buffer and (when source maps are
enabled) source-map-init attachments. -/
theorem gulpPipes_nonArray_throwsBeforeUserStages (bc : BrunchConfig)
    (st : PluginState)
    (h : bc.plugins.gulpPipeCreateFns = .truthyNonArray) :
    bundleTrace bc st = (preEvents bc st, some .configNotArray) := by
  unfold bundleTrace
  rw [h]
  simp [gulpPipesStep]

theorem gulpPipes_nonArray_throwsBeforeUserStages_witness :
    brunchC1.plugins.gulpPipeCreateFns = .truthyNonArray
    ∧ bundleTrace brunchC1 (mkPlugin brunchC1 ["brunch", "build"] "/work")
        = (preEvents brunchC1 (mkPlugin brunchC1 ["brunch", "build"] "/work"),
           some .configNotArray) :=
  ⟨rfl, gulpPipes_nonArray_throwsBeforeUserStages brunchC1 _ rfl⟩

/-- C2: with the host optimize flag set (and the custom stage factories a
list of functions), the bundle trace attaches every user pipe in the order
supplied, then the uglify stage, then the rename stage. -/
theorem uglify_between_userPipes_and_rename (bc : BrunchConfig)
    (st : PluginState) (elems : List Bool)
    (hopt : bc.optimize = true)
    (hgp : bc.plugins.gulpPipeCreateFns = .arr elems)
    (hall : ∀ b ∈ elems, b = true) :
    bundleTrace bc st
      = (preEvents bc st
         ++ (List.range elems.length).map
             (fun i => Event.pipeAttached (.userPipe i))
         ++ [Event.pipeAttached (.uglifyStage st.uglifyOptions_),
             Event.pipeAttached (.renameStage st.gulpRenameOptions_)]
         ++ (if bc.sourceMaps then [Event.pipeAttached (.sourcemapsWrite ".")] else [])
         ++ [Event.pipeAttached (.gulpDest st.gulpDestDir_)], none) := by
  have hstep : gulpPipesStep (GulpPipes.arr elems)
      = ((List.range' 0 elems.length).map
          (fun j => Event.pipeAttached (.userPipe j)), none) := by
    simp [gulpPipesStep, attachUserPipes_all elems hall 0]
  unfold bundleTrace
  rw [hgp, hstep]
  simp [postEvents, hopt, List.range_eq_range']

/-- A host configuration with optimize on and two user stage factories. -/
def brunchC2 : BrunchConfig :=
  { pathsPublic := "public", sourceMaps := false, optimize := true,
    plugins := { entry := "app/init.js", outFile := "js/app.js",
                 gulpPipeCreateFns := .arr [true, true] } }

theorem uglify_between_userPipes_and_rename_witness :
    brunchC2.optimize = true
    ∧ bundleTrace brunchC2 (mkPlugin brunchC2 ["brunch"] "/work")
        = (preEvents brunchC2 (mkPlugin brunchC2 ["brunch"] "/work")
           ++ (List.range ([true, true] : List Bool).length).map
               (fun i => Event.pipeAttached (.userPipe i))
           ++ [Event.pipeAttached
                 (.uglifyStage (mkPlugin brunchC2 ["brunch"] "/work").uglifyOptions_),
               Event.pipeAttached
                 (.renameStage (mkPlugin brunchC2 ["brunch"] "/work").gulpRenameOptions_)]
           ++ (if brunchC2.sourceMaps then [Event.pipeAttached (.sourcemapsWrite ".")] else [])
           ++ [Event.pipeAttached
                 (.gulpDest (mkPlugin brunchC2 ["brunch"] "/work").gulpDestDir_)], none) :=
  ⟨rfl, uglify_between_userPipes_and_rename brunchC2 _ [true, true] rfl rfl (by decide)⟩

/-- C4: when source maps and optimize are both enabled, the uglify options
the minifier stage receives have `compress = false` unless the host's
`uglifyOptions` explicitly contains a `compress` key, in which case the
host's value is kept; the uglify stage in the trace receives exactly this
options object. -/
theorem compress_forced_false_unless_set (bc : BrunchConfig) (argv : List String)
    (cwd : String)
    (h1 : bc.sourceMaps = true) (h2 : bc.optimize = true) :
    (objHas (bc.plugins.uglifyOptions.getD []) "compress" = false →
        objGet (mkPlugin bc argv cwd).uglifyOptions_ "compress" = some (.bool false))
    ∧ (∀ v, objGet (bc.plugins.uglifyOptions.getD []) "compress" = some v →
        objGet (mkPlugin bc argv cwd).uglifyOptions_ "compress" = some v)
    ∧ ((bundleTrace bc (mkPlugin bc argv cwd)).2 = none →
        Event.pipeAttached (.uglifyStage (mkPlugin bc argv cwd).uglifyOptions_)
          ∈ (bundleTrace bc (mkPlugin bc argv cwd)).1) := by
  refine ⟨?_, ?_, ?_⟩
  · intro hno
    simp [mkPlugin, uglifyOptionsInit, h1, hno, objGet_objSet_self]
  · intro v hv
    have hv2 : objHas (bc.plugins.uglifyOptions.getD []) "compress" = true := by
      simp [objHas, hv]
    simp [mkPlugin, uglifyOptionsInit, h1, hv2, hv]
  · intro hnone
    obtain ⟨evs, htr, _⟩ := bundleTrace_shape bc (mkPlugin bc argv cwd) hnone
    rw [htr]
    simp [postEvents, h2]

/-- A host configuration with source maps and optimize both on and no
host-supplied `compress` key. -/
def brunchC4 : BrunchConfig :=
  { pathsPublic := "public", sourceMaps := true, optimize := true,
    plugins := { entry := "app/init.js", outFile := "js/app.js" } }

theorem compress_forced_false_unless_set_witness :
    brunchC4.sourceMaps = true ∧ brunchC4.optimize = true
    ∧ objHas (brunchC4.plugins.uglifyOptions.getD []) "compress" = false
    ∧ objGet (mkPlugin brunchC4 ["brunch"] "/work").uglifyOptions_ "compress"
        = some (.bool false) :=
  ⟨rfl, rfl, by decide,
   (compress_forced_false_unless_set brunchC4 ["brunch"] "/work" rfl rfl).1 (by decide)⟩

/-- C3: with source maps and optimize both disabled and no user-supplied
custom stages, the single artifact written under the public output
directory carries the bundler's raw serialized output unchanged, at the
path given by the configured rename directory/base name/extension. -/
theorem rawOutput_renamed_byteIdentical (L : LibSem) (bc : BrunchConfig)
    (argv : List String) (cwd : String)
    (h1 : bc.sourceMaps = false) (h2 : bc.optimize = false)
    (h3 : bc.plugins.gulpPipeCreateFns = .falsy
          ∨ bc.plugins.gulpPipeCreateFns = .arr []) :
    (bundleTrace bc (mkPlugin bc argv cwd)).2 = none
    ∧ (runBundle L bc (mkPlugin bc argv cwd)).writes
      = [(joinPath (pathResolve cwd bc.pathsPublic)
            (applyRename (gulpRenameOptions bc.plugins.outFile)), L.raw)] := by
  rcases h3 with h3 | h3 <;>
    exact ⟨by simp [bundleTrace, gulpPipesStep, attachUserPipes, h3],
           by simp [runBundle, bundleTrace, gulpPipesStep, attachUserPipes, h3,
             preEvents, postEvents, h1, h2, stagesOf, runPipeline, runStage,
             initFlow, mkPlugin]⟩

/-- A host configuration with source maps and optimize off and no custom
stages. -/
def brunchC3 : BrunchConfig :=
  { pathsPublic := "public", sourceMaps := false, optimize := false,
    plugins := { entry := "app/init.js", outFile := "js/app.js" } }

theorem rawOutput_renamed_byteIdentical_witness :
    brunchC3.sourceMaps = false ∧ brunchC3.optimize = false
    ∧ (bundleTrace brunchC3 (mkPlugin brunchC3 ["brunch"] "/work")).2 = none
    ∧ (runBundle demoLib brunchC3 (mkPlugin brunchC3 ["brunch"] "/work")).writes
      = [(joinPath (pathResolve "/work" brunchC3.pathsPublic)
            (applyRename (gulpRenameOptions brunchC3.plugins.outFile)), demoLib.raw)] :=
  ⟨rfl, rfl,
   (rawOutput_renamed_byteIdentical demoLib brunchC3 ["brunch"] "/work" rfl rfl
     (Or.inl rfl)).1,
   (rawOutput_renamed_byteIdentical demoLib brunchC3 ["brunch"] "/work" rfl rfl
     (Or.inl rfl)).2⟩

/-- C5: with source maps enabled, the options handed to the bundler have
`debug = true`; an error-free gulp-variant trace attaches the
`sourcemaps.write('.')` stage and its semantic run writes a sibling `.map`
artifact next to the renamed bundle; and the second variant pipes the
bundle through `exorcist` into the configured map-file path. -/
theorem sourceMaps_debug_and_mapArtifact (L : LibSem) (bc : BrunchConfig)
    (argv : List String) (cwd : String)
    (h : bc.sourceMaps = true) :
    objGet (mkPlugin bc argv cwd).bOptions "debug" = some (.bool true)
    ∧ ((bundleTrace bc (mkPlugin bc argv cwd)).2 = none →
        Event.pipeAttached (.sourcemapsWrite ".")
          ∈ (bundleTrace bc (mkPlugin bc argv cwd)).1
        ∧ ∃ data,
            (joinPath (mkPlugin bc argv cwd).gulpDestDir_
               (applyRename (mkPlugin bc argv cwd).gulpRenameOptions_ ++ ".map"),
             data)
            ∈ (runBundle L bc (mkPlugin bc argv cwd)).writes)
    ∧ Event2.piped (.exorcist (mkPlugin2 bc argv cwd).outMapFile_)
        ∈ bundleTrace2 bc (mkPlugin2 bc argv cwd) := by
  refine ⟨?_, ?_, ?_⟩
  · simpa [mkPlugin] using mkBOptions_debug bc argv h
  · intro hnone
    obtain ⟨evs, htr, _⟩ := bundleTrace_shape bc (mkPlugin bc argv cwd) hnone
    constructor
    · rw [htr]; simp [postEvents, h]
    · have hstages : stagesOf (bundleTrace bc (mkPlugin bc argv cwd)).1
          = (stagesOf (preEvents bc (mkPlugin bc argv cwd)) ++ stagesOf evs
             ++ (if bc.optimize then
                  [Stage.uglifyStage (mkPlugin bc argv cwd).uglifyOptions_]
                 else []))
            ++ [Stage.renameStage (mkPlugin bc argv cwd).gulpRenameOptions_,
                .sourcemapsWrite ".", .gulpDest (mkPlugin bc argv cwd).gulpDestDir_] := by
        rw [htr]
        cases hopt : bc.optimize <;>
          simp [stagesOf, postEvents, h, hopt, List.filterMap_append]
      unfold runBundle
      rw [hstages]
      exact runPipeline_map_write L _ _ _
  · simp [bundleTrace2, h]

/-- A host configuration with source maps on. -/
def brunchC5 : BrunchConfig :=
  { pathsPublic := "public", sourceMaps := true, optimize := false,
    plugins := { entry := "app/init.js", outFile := "js/app.js",
                 mapFile := "js/app.js.map" } }

theorem sourceMaps_debug_and_mapArtifact_witness :
    brunchC5.sourceMaps = true
    ∧ objGet (mkPlugin brunchC5 ["brunch"] "/work").bOptions "debug"
        = some (.bool true)
    ∧ Event.pipeAttached (.sourcemapsWrite ".")
        ∈ (bundleTrace brunchC5 (mkPlugin brunchC5 ["brunch"] "/work")).1
    ∧ Event2.piped (.exorcist (mkPlugin2 brunchC5 ["brunch"] "/work").outMapFile_)
        ∈ bundleTrace2 brunchC5 (mkPlugin2 brunchC5 ["brunch"] "/work") :=
  ⟨rfl,
   (sourceMaps_debug_and_mapArtifact demoLib brunchC5 ["brunch"] "/work" rfl).1,
   ((sourceMaps_debug_and_mapArtifact demoLib brunchC5 ["brunch"] "/work" rfl).2.1
     (by decide)).1,
   (sourceMaps_debug_and_mapArtifact demoLib brunchC5 ["brunch"] "/work" rfl).2.2⟩

/-- C6: watch mode holds exactly when some process argument equals
`"watch"`; exactly then the bundler options receive fresh empty `cache` and
`packageCache` objects and the bundler is wrapped in the watchify
decorator (otherwise the options stay as merged and no wrap happens). -/
theorem watch_detection_and_caches (bc : BrunchConfig) (argv : List String)
    (cwd : String) :
    ((mkPlugin bc argv cwd).watching_ = true ↔ "watch" ∈ argv)
    ∧ (mkPlugin bc argv cwd).bundlerIsWatchify = (mkPlugin bc argv cwd).watching_
    ∧ ((mkPlugin bc argv cwd).watching_ = true →
        objGet (mkPlugin bc argv cwd).bOptions "cache" = some .emptyObj
        ∧ objGet (mkPlugin bc argv cwd).bOptions "packageCache" = some .emptyObj)
    ∧ ((mkPlugin bc argv cwd).watching_ = false →
        (mkPlugin bc argv cwd).bOptions = optionsWithDebug bc
        ∧ (mkPlugin bc argv cwd).bundlerIsWatchify = false) := by
  refine ⟨?_, rfl, ?_, ?_⟩
  · simp [mkPlugin, watchingOf_iff]
  · intro hw
    simp only [mkPlugin] at hw ⊢
    exact mkBOptions_cache bc argv hw
  · intro hw
    simp only [mkPlugin] at hw ⊢
    exact ⟨by simp [mkBOptions, hw], hw⟩

theorem watch_detection_and_caches_witness :
    ((mkPlugin demoBrunch ["brunch", "watch"] "/work").watching_ = true
      ↔ "watch" ∈ (["brunch", "watch"] : List String))
    ∧ objGet (mkPlugin demoBrunch ["brunch", "watch"] "/work").bOptions "cache"
        = some .emptyObj
    ∧ objGet (mkPlugin demoBrunch ["brunch", "watch"] "/work").bOptions "packageCache"
        = some .emptyObj
    ∧ (mkPlugin demoBrunch ["brunch", "build"] "/work").bOptions
        = optionsWithDebug demoBrunch :=
  ⟨(watch_detection_and_caches demoBrunch ["brunch", "watch"] "/work").1,
   ((watch_detection_and_caches demoBrunch ["brunch", "watch"] "/work").2.2.1
     (by decide)).1,
   ((watch_detection_and_caches demoBrunch ["brunch", "watch"] "/work").2.2.1
     (by decide)).2,
   ((watch_detection_and_caches demoBrunch ["brunch", "build"] "/work").2.2.2
     (by decide)).1⟩

/-- C7: an error-free `bundle()` call attaches exactly one destination
write stage (one pipeline run), and on completion logs, for N > 1 changed
files, one `Compiled:` line per file (in order) followed by one
`Finished ... in Xms` line, and for a single changed file exactly one
`Compiled: <file> in Xms` line. -/
theorem changeNotification_single_run_logs (bc : BrunchConfig) (st : PluginState)
    (cwd : String) (fs : List String) (ms : Nat)
    (h : (bundleTrace bc st).2 = none) :
    destStageCount bc st = 1
    ∧ (1 < fs.length →
        finishLog cwd (some fs) ms
          = fs.map (fun f => LogLine.compiled (shortFileName cwd f))
            ++ [.finishedIn ms])
    ∧ (∀ f, fs = [f] →
        finishLog cwd (some fs) ms = [.compiledIn (shortFileName cwd f) ms]) := by
  refine ⟨?_, ?_, ?_⟩
  · obtain ⟨evs, htr, hevs⟩ := bundleTrace_shape bc st h
    have hz : (stagesOf evs).countP isDestStage = 0 := by
      rw [List.countP_eq_zero]
      intro x hx
      simp only [stagesOf, List.mem_filterMap] at hx
      obtain ⟨e, he, hmatch⟩ := hx
      obtain ⟨j, hj⟩ := hevs e he
      subst hj
      simp only [Option.some.injEq] at hmatch
      rw [← hmatch]
      simp [isDestStage]
    have hpre : (stagesOf (preEvents bc st)).countP isDestStage = 0 := by
      cases hsm : bc.sourceMaps <;> simp [stagesOf, preEvents, hsm, isDestStage]
    have hpost : (stagesOf (postEvents bc st)).countP isDestStage = 1 := by
      cases hsm : bc.sourceMaps <;> cases hopt : bc.optimize <;>
        simp [stagesOf, postEvents, hsm, hopt, isDestStage]
    unfold destStageCount
    rw [htr]
    simp [stagesOf_append, List.countP_append, hz, hpre, hpost]
  · intro hgt
    simp [finishLog, hgt]
  · intro f hf
    subst hf
    simp [finishLog]

theorem changeNotification_single_run_logs_witness :
    (bundleTrace demoBrunch (mkPlugin demoBrunch ["brunch"] "/work")).2 = none
    ∧ destStageCount demoBrunch (mkPlugin demoBrunch ["brunch"] "/work") = 1
    ∧ finishLog "/work" (some ["/work/a.js", "/work/b.js"]) 12
        = (["/work/a.js", "/work/b.js"] : List String).map
            (fun f => LogLine.compiled (shortFileName "/work" f))
          ++ [.finishedIn 12]
    ∧ finishLog "/work" (some ["/work/a.js"]) 12
        = [.compiledIn (shortFileName "/work" "/work/a.js") 12] :=
  ⟨by decide,
   (changeNotification_single_run_logs demoBrunch (mkPlugin demoBrunch ["brunch"] "/work")
     "/work" ["/work/a.js", "/work/b.js"] 12 (by decide)).1,
   (changeNotification_single_run_logs demoBrunch (mkPlugin demoBrunch ["brunch"] "/work")
     "/work" ["/work/a.js", "/work/b.js"] 12 (by decide)).2.1 (by decide),
   (changeNotification_single_run_logs demoBrunch (mkPlugin demoBrunch ["brunch"] "/work")
     "/work" ["/work/a.js"] 12 (by decide)).2.2 "/work/a.js" rfl⟩

/-- C8: with `touchOnCompile` configured and the clock ahead of the
sentinel's old modification time, a successful pipeline completion sets the
sentinel's modification time to the current clock (creating the file if
absent, strictly above any previous time), while a failed run leaves it
unchanged. -/
theorem touchOnCompile_strict_increase (st : PluginState) (cwd : String)
    (changed : Option (List String)) (ms now : Nat) (mtime : Option Nat)
    (p msg : String)
    (hp : st.touchOnCompile = some p)
    (hclock : ∀ t, mtime = some t → t < now) :
    ((bundleCompletion st cwd changed ms now mtime .success).2 = some now
      ∧ ∀ t, mtime = some t → t < now)
    ∧ (bundleCompletion st cwd changed ms now mtime (.failure msg)).2 = mtime := by
  refine ⟨⟨?_, hclock⟩, rfl⟩
  simp [bundleCompletion, onFinish, hp]

/-- A host configuration with a `touchOnCompile` sentinel. -/
def brunchC8 : BrunchConfig :=
  { pathsPublic := "public", sourceMaps := false, optimize := false,
    plugins := { entry := "app/init.js", outFile := "js/app.js",
                 touchOnCompile := some ".compiled" } }

theorem touchOnCompile_strict_increase_witness :
    (mkPlugin brunchC8 ["brunch"] "/work").touchOnCompile = some ".compiled"
    ∧ (bundleCompletion (mkPlugin brunchC8 ["brunch"] "/work") "/work"
        (some ["a.js"]) 12 7 (some 5) .success).2 = some 7
    ∧ (5 : Nat) < 7
    ∧ (bundleCompletion (mkPlugin brunchC8 ["brunch"] "/work") "/work"
        (some ["a.js"]) 12 7 (some 5) (.failure "bundle error")).2 = some 5 :=
  ⟨rfl,
   (touchOnCompile_strict_increase (mkPlugin brunchC8 ["brunch"] "/work") "/work"
     (some ["a.js"]) 12 7 (some 5) ".compiled" "bundle error" rfl
     (by intro t ht; injection ht with hh; omega)).1.1,
   (touchOnCompile_strict_increase (mkPlugin brunchC8 ["brunch"] "/work") "/work"
     (some ["a.js"]) 12 7 (some 5) ".compiled" "bundle error" rfl
     (by intro t ht; injection ht with hh; omega)).1.2 5 rfl,
   (touchOnCompile_strict_increase (mkPlugin brunchC8 ["brunch"] "/work") "/work"
     (some ["a.js"]) 12 7 (some 5) ".compiled" "bundle error" rfl
     (by intro t ht; injection ht with hh; omega)).2⟩

/-- C9: every key of the host's `browserifyOptions` is copied over the
defaults (so a user-supplied value, `extensions` included, replaces the
default), and only afterwards are the forced flags applied: `debug` is
`true` whenever source maps are enabled, `cache`/`packageCache` are fresh
empty objects whenever watch mode is active, and every other user key
survives to the final options. -/
theorem browserifyOptions_copy_then_force (bc : BrunchConfig) (argv : List String)
    (hnd : (bc.plugins.browserifyOptions.map Prod.fst).Nodup) :
    (∀ k, k ∈ bc.plugins.browserifyOptions.map Prod.fst →
        objGet (mergedOptions bc) k = objGet bc.plugins.browserifyOptions k)
    ∧ (bc.sourceMaps = true →
        objGet (mkBOptions bc argv) "debug" = some (.bool true))
    ∧ (watchingOf argv = true →
        objGet (mkBOptions bc argv) "cache" = some .emptyObj
        ∧ objGet (mkBOptions bc argv) "packageCache" = some .emptyObj)
    ∧ (∀ k, k ∈ bc.plugins.browserifyOptions.map Prod.fst →
        k ≠ "debug" → k ≠ "cache" → k ≠ "packageCache" →
        objGet (mkBOptions bc argv) k = objGet bc.plugins.browserifyOptions k) := by
  refine ⟨?_, mkBOptions_debug bc argv, mkBOptions_cache bc argv, ?_⟩
  · intro k hk
    exact objMerge_get_mem baseOptions bc.plugins.browserifyOptions k hnd hk
  · intro k hk h1 h2 h3
    rw [mkBOptions_passthrough bc argv k h1 h2 h3]
    exact objMerge_get_mem baseOptions bc.plugins.browserifyOptions k hnd hk

/-- A host configuration whose `browserifyOptions` override the default
`extensions` and try to preset `debug` and `cache`. -/
def brunchC9 : BrunchConfig :=
  { pathsPublic := "public", sourceMaps := true, optimize := false,
    plugins := { entry := "app/init.js", outFile := "js/app.js",
                 browserifyOptions :=
                   [("extensions", .strList [".jsx"]), ("debug", .bool false),
                    ("cache", .str "user")] } }

theorem browserifyOptions_copy_then_force_witness :
    objGet (mergedOptions brunchC9) "extensions" = some (.strList [".jsx"])
    ∧ objGet (mkBOptions brunchC9 ["brunch", "watch"]) "debug" = some (.bool true)
    ∧ objGet (mkBOptions brunchC9 ["brunch", "watch"]) "cache" = some .emptyObj
    ∧ objGet (mkBOptions brunchC9 ["brunch", "watch"]) "packageCache" = some .emptyObj
    ∧ objGet (mkBOptions brunchC9 ["brunch", "watch"]) "extensions"
        = some (.strList [".jsx"]) := by
  refine ⟨?_, ?_, ?_, ?_, ?_⟩
  · rw [(browserifyOptions_copy_then_force brunchC9 ["brunch", "watch"]
      (by decide)).1 "extensions" (by decide)]
    decide
  · exact (browserifyOptions_copy_then_force brunchC9 ["brunch", "watch"]
      (by decide)).2.1 rfl
  · exact ((browserifyOptions_copy_then_force brunchC9 ["brunch", "watch"]
      (by decide)).2.2.1 (by decide)).1
  · exact ((browserifyOptions_copy_then_force brunchC9 ["brunch", "watch"]
      (by decide)).2.2.1 (by decide)).2
  · rw [(browserifyOptions_copy_then_force brunchC9 ["brunch", "watch"]
      (by decide)).2.2.2 "extensions" (by decide) (by decide) (by decide) (by decide)]
    decide

end AnotherBrowserify
